import Mathlib

/-!
# Verification of the Video-Dataset-Prep utility scripts

Shallow embedding, in Lean 4, of the pure decision logic of the repository's
Python scripts, together with theorems settling the specification's claims.

Conventions used throughout:
* Python `float` arithmetic on aspect ratios is modelled by exact rational
  arithmetic (`ℚ`); `int(x)` on a non-negative value truncates towards zero,
  which is floor, and is modelled by `Nat` floor division where both operands
  are integers.
* The filesystem is modelled as a set of directories plus a set of
  `(directory, filename)` pairs; `os.listdir` returns the filenames of a
  directory in the order they appear in the model, `os.path.join d n` is the
  pair `(d, n)`, and `os.path.dirname (d, n)` is `d`.
* Fallible Python code is modelled with `Option`/explicit result inductives;
  a Python function that lets an exception escape is modelled by a dedicated
  `raised` constructor.
-/

set_option autoImplicit false

namespace VideoPrep

/-! ## AR_normalizer.py: `calculate_output_dimensions` (lines 35-53)

Python source:
```
input_ar = input_width / input_height
target_ar = target_width / target_height
if input_ar > target_ar:
    crop_width = int(input_height * target_ar)
    crop_height = input_height
    crop_width = crop_width - (crop_width % 2)
else:
    crop_width = input_width
    crop_height = int(input_width / target_ar)
    crop_height = crop_height - (crop_height % 2)
return crop_width, crop_height
```
The float divisions and comparison are modelled over `ℚ`;
`int(input_height * target_ar)` is `⌊input_height * target_width / target_height⌋`,
which on naturals is the floor division `input_height * target_width / target_height`.
-/

def calculate_output_dimensions (input_width input_height target_width target_height : ℕ) :
    ℕ × ℕ :=
  let input_ar : ℚ := (input_width : ℚ) / (input_height : ℚ)
  let target_ar : ℚ := (target_width : ℚ) / (target_height : ℚ)
  if input_ar > target_ar then
    -- Input is wider - crop width, keep height
    let crop_width := input_height * target_width / target_height
    (crop_width - crop_width % 2, input_height)
  else
    -- Input is taller - crop height, keep width
    let crop_height := input_width * target_height / target_width
    (input_width, crop_height - crop_height % 2)

/-! ## bucketeer.py: `find_closest_smaller_bucket` (lines 27-32)

Python source:
```
valid_buckets = [b for b in buckets if b <= frame_count]
if not valid_buckets:
    return None
return max(valid_buckets)
```
`max` of a nonempty list is `List.max?` (which is `none` exactly on `[]`).
-/

def find_closest_smaller_bucket (frame_count : ℤ) (buckets : List ℤ) : Option ℤ :=
  (buckets.filter (fun b => b ≤ frame_count)).max?

/-! Helper lemma about `List.max?` on `ℤ`, specialised from core. -/

theorem max?_spec {l : List ℤ} {m : ℤ} :
    l.max? = some m ↔ m ∈ l ∧ ∀ x ∈ l, x ≤ m :=
  @List.max?_eq_some_iff ℤ m _ _ ⟨@fun _ _ h h' => le_antisymm h h'⟩
    (fun a => le_refl a) (fun a b => max_choice a b) (fun _ _ _ => max_le_iff) l

/-- The branch guard of `calculate_output_dimensions`, restated over integers:
for positive heights, `tw/th < iw/ih` over `ℚ` is `tw * ih < iw * th`.
Used to evaluate the function on concrete inputs. -/
def calc_out_dims_int (iw ih tw th : ℕ) : ℕ × ℕ :=
  if tw * ih < iw * th then
    let cw := ih * tw / th
    (cw - cw % 2, ih)
  else
    let ch := iw * th / tw
    (iw, ch - ch % 2)

theorem calc_out_dims_eq (iw ih tw th : ℕ) (hih : 0 < ih) (hth : 0 < th) :
    calculate_output_dimensions iw ih tw th = calc_out_dims_int iw ih tw th := by
  unfold calculate_output_dimensions calc_out_dims_int
  have key : ((tw : ℚ) / (th : ℚ) < (iw : ℚ) / (ih : ℚ)) ↔ (tw * ih < iw * th) := by
    rw [div_lt_div_iff₀ (by exact_mod_cast hth) (by exact_mod_cast hih)]
    exact_mod_cast Iff.rfl
  simp only [gt_iff_lt, key]

theorem sub_mod_two_even (n : ℕ) : (n - n % 2) % 2 = 0 := by omega

/-- C1 counterexample: at the positive input `(1280, 719, 16, 9)` the function
takes the "input is wider" branch and returns `(1278, 719)`; the kept height
719 is odd, so the outputs are not both even. -/
theorem calculate_output_dimensions_not_both_even :
    calculate_output_dimensions 1280 719 16 9 = (1278, 719) ∧ ¬ (719 : ℕ) % 2 = 0 := by
  refine ⟨?_, by decide⟩
  rw [calc_out_dims_eq 1280 719 16 9 (by decide) (by decide)]
  decide

/-- C1 (amended): for positive inputs, `calculate_output_dimensions` returns
`(crop_w, crop_h)` with `crop_w ≤ input_w` and `crop_h ≤ input_h`; the cropped
dimension is even while the kept dimension equals the corresponding input
dimension (so both outputs are even only when the kept input dimension is). -/
theorem calculate_output_dimensions_bounds (iw ih tw th : ℕ)
    (hih : 0 < ih) (htw : 0 < tw) (hth : 0 < th) :
    (calculate_output_dimensions iw ih tw th).1 ≤ iw ∧
    (calculate_output_dimensions iw ih tw th).2 ≤ ih ∧
    (((calculate_output_dimensions iw ih tw th).1 % 2 = 0 ∧
      (calculate_output_dimensions iw ih tw th).2 = ih) ∨
     ((calculate_output_dimensions iw ih tw th).2 % 2 = 0 ∧
      (calculate_output_dimensions iw ih tw th).1 = iw)) := by
  rw [calc_out_dims_eq iw ih tw th hih hth]
  unfold calc_out_dims_int
  split
  case isTrue h =>
    have hcw : ih * tw / th < iw := by
      rw [Nat.div_lt_iff_lt_mul hth]
      calc ih * tw = tw * ih := Nat.mul_comm ih tw
        _ < iw * th := h
    exact ⟨le_trans (Nat.sub_le _ _) (le_of_lt hcw), le_refl ih,
      Or.inl ⟨sub_mod_two_even _, rfl⟩⟩
  case isFalse h =>
    have hch : iw * th / tw ≤ ih := by
      have h' : iw * th ≤ ih * tw := by
        have := Nat.not_lt.mp h
        calc iw * th ≤ tw * ih := this
          _ = ih * tw := Nat.mul_comm tw ih
      calc iw * th / tw ≤ ih * tw / tw := Nat.div_le_div_right h'
        _ = ih := Nat.mul_div_cancel ih htw
    exact ⟨le_refl iw, le_trans (Nat.sub_le _ _) hch,
      Or.inr ⟨sub_mod_two_even _, rfl⟩⟩

/-- Witness for the amended C1 theorem at the concrete input `(16, 9, 16, 9)`. -/
theorem calculate_output_dimensions_bounds_witness :
    (calculate_output_dimensions 16 9 16 9).1 ≤ 16 ∧
    (calculate_output_dimensions 16 9 16 9).2 ≤ 9 ∧
    (((calculate_output_dimensions 16 9 16 9).1 % 2 = 0 ∧
      (calculate_output_dimensions 16 9 16 9).2 = 9) ∨
     ((calculate_output_dimensions 16 9 16 9).2 % 2 = 0 ∧
      (calculate_output_dimensions 16 9 16 9).1 = 16)) :=
  calculate_output_dimensions_bounds 16 9 16 9 (by decide) (by decide) (by decide)

/-- C5: `find_closest_smaller_bucket` returns exactly the maximum bucket that is
`≤ frame_count`, and `none` when no bucket is `≤ frame_count`; in particular the
three example classifications from the specification hold. -/
theorem find_closest_smaller_bucket_spec :
    (∀ (fc : ℤ) (buckets : List ℤ),
      (∀ m : ℤ, find_closest_smaller_bucket fc buckets = some m ↔
        m ∈ buckets ∧ m ≤ fc ∧ ∀ b ∈ buckets, b ≤ fc → b ≤ m) ∧
      (find_closest_smaller_bucket fc buckets = none ↔ ∀ b ∈ buckets, ¬ b ≤ fc)) ∧
    find_closest_smaller_bucket 90 [30, 60, 120] = some 60 ∧
    find_closest_smaller_bucket 10 [30, 60] = none ∧
    find_closest_smaller_bucket 120 [30, 60, 120] = some 120 := by
  refine ⟨fun fc buckets => ⟨fun m => ?_, ?_⟩, by decide, by decide, by decide⟩
  · rw [find_closest_smaller_bucket, max?_spec]
    simp only [List.mem_filter, decide_eq_true_eq]
    constructor
    · rintro ⟨⟨hmem, hle⟩, hmax⟩
      exact ⟨hmem, hle, fun b hb hble => hmax b ⟨hb, hble⟩⟩
    · rintro ⟨hmem, hle, hmax⟩
      exact ⟨⟨hmem, hle⟩, fun b hb => hmax b hb.1 hb.2⟩
  · rw [find_closest_smaller_bucket, List.max?_eq_none_iff, List.filter_eq_nil_iff]
    simp

/-- Witness for C5, deriving a concrete classification through the theorem. -/
theorem find_closest_smaller_bucket_spec_witness :
    find_closest_smaller_bucket 7 [3, 5] = some 5 :=
  ((find_closest_smaller_bucket_spec.1 7 [3, 5]).1 5).mpr
    ⟨by decide, by decide, by decide⟩

/-- C9: classification is invariant under permutation of the bucket list, and
the empty bucket list classifies every frame count as `none`. -/
theorem find_closest_smaller_bucket_perm_invariant :
    (∀ (fc : ℤ) (l₁ l₂ : List ℤ), l₁.Perm l₂ →
      find_closest_smaller_bucket fc l₁ = find_closest_smaller_bucket fc l₂) ∧
    (∀ fc : ℤ, find_closest_smaller_bucket fc [] = none) := by
  refine ⟨fun fc l₁ l₂ hperm => ?_, fun fc => rfl⟩
  have hpf : (l₁.filter (fun b => b ≤ fc)).Perm (l₂.filter (fun b => b ≤ fc)) :=
    hperm.filter _
  unfold find_closest_smaller_bucket
  cases h : (l₁.filter (fun b => b ≤ fc)).max? with
  | none =>
    rw [List.max?_eq_none_iff] at h
    rw [h] at hpf
    rw [hpf.symm.eq_nil]
    rfl
  | some m =>
    obtain ⟨hmem, hmax⟩ := max?_spec.mp h
    exact (max?_spec.mpr ⟨hpf.mem_iff.mp hmem,
      fun x hx => hmax x (hpf.mem_iff.mpr hx)⟩).symm

/-- Witness for C9 at a concrete permutation. -/
theorem find_closest_smaller_bucket_perm_invariant_witness :
    find_closest_smaller_bucket 5 [1, 2] = find_closest_smaller_bucket 5 [2, 1] :=
  find_closest_smaller_bucket_perm_invariant.1 5 [1, 2] [2, 1] (by decide)

/-! ## Media-probe helpers (C2)

`AR_normalizer.get_video_info` (lines 14-33) runs ffprobe with `check=True`,
then executes `import json` *inside the `try` block*, parses the JSON output
and reads `streams[0].width/height`.  Its handler is
`except (subprocess.CalledProcessError, json.JSONDecodeError, KeyError)`.
Because `import json` binds `json` as a *local* of the function, a
`CalledProcessError` raised by `subprocess.run` (non-zero ffprobe exit) reaches
the handler before `json` is bound; evaluating the `except` tuple then raises
`UnboundLocalError` on the name `json`, which escapes the function.  All other
parse failures occur after `import json`, so they are caught and turn into the
`(None, None)` sentinel.  The inductive below enumerates the observable
outcomes of the probe step and the definition maps each to the function's
behaviour.  (A non-integer `width`/`height` string would likewise escape as a
`ValueError`; it is outside the claim and not modelled.) -/

/-- Result of running a Python function: either a returned value or an
exception escaping the function, identified by its class name. -/
inductive PyResult (α : Type) where
  | ret (a : α)
  | raised (exc : String)
  deriving DecidableEq

/-- Observable outcome of the `ffprobe`+JSON probe inside `get_video_info`. -/
inductive ProbeOutcome where
  | exitFailure
  | badJson
  | noStreams
  | missingField
  | ok (width height : ℕ)

def get_video_info : ProbeOutcome → PyResult (Option (ℕ × ℕ))
  | .exitFailure => .raised "UnboundLocalError"
  | .badJson => .ret none
  | .noStreams => .ret none
  | .missingField => .ret none
  | .ok w h => .ret (some (w, h))

/-! `fps_changer.get_video_fps` (lines 4-36) runs ffprobe with `check=True`
under a bare `except:` that returns the default `30.0`; a parsed `"num/den"`
with `den = 0` raises `ZeroDivisionError`, also caught by the bare handler. -/

/-- Observable outcome of the ffprobe call and stdout parse in
`get_video_fps`. -/
inductive FpsProbeOutcome where
  | exitFailure
  | unparsable
  | fraction (num den : ℤ)
  | plain (value : ℚ)

def get_video_fps : FpsProbeOutcome → ℚ
  | .exitFailure => 30
  | .unparsable => 30
  | .fraction n d => if d = 0 then 30 else (n : ℚ) / (d : ℚ)
  | .plain v => v

/-! `bucketeer.get_frame_count` (lines 10-24) opens the video with OpenCV under
`except Exception`, returning `None` both when the capture cannot be opened and
when any exception is raised. -/

/-- Observable outcome of the OpenCV capture in `get_frame_count`. -/
inductive FrameCountOutcome where
  | openFailed
  | cvError
  | frames (n : ℤ)

def get_frame_count : FrameCountOutcome → Option ℤ
  | .openFailed => none
  | .cvError => none
  | .frames n => some n

/-- C2 (code bug): `get_video_fps` and `get_frame_count` do return their
sentinels on every failure, and `get_video_info` returns its `(None, None)`
sentinel on malformed JSON and missing fields — but on a non-zero exit of the
probing tool `get_video_info` raises `UnboundLocalError` (the `except` tuple
names `json`, a local bound only by the `import json` statement placed after
the subprocess call inside the `try`), aborting the batch instead of skipping
the item. -/
theorem get_video_info_raises_on_exit_failure :
    get_video_info ProbeOutcome.exitFailure = PyResult.raised "UnboundLocalError" ∧
    get_video_info ProbeOutcome.badJson = PyResult.ret none ∧
    get_video_info ProbeOutcome.noStreams = PyResult.ret none ∧
    get_video_info ProbeOutcome.missingField = PyResult.ret none ∧
    get_video_fps FpsProbeOutcome.exitFailure = 30 ∧
    get_video_fps FpsProbeOutcome.unparsable = 30 ∧
    get_video_fps (FpsProbeOutcome.fraction 5 0) = 30 ∧
    get_frame_count FrameCountOutcome.openFailed = none ∧
    get_frame_count FrameCountOutcome.cvError = none :=
  ⟨rfl, rfl, rfl, rfl, rfl, rfl, by norm_num [get_video_fps], rfl, rfl⟩

/-! ## youtube_downloader5.py: `is_livestream` (lines 197-239)

The whole body sits in a `try`; on any exception the handler prints and
returns `False` ("if we can't determine, assume it's not a livestream").
On success it checks `is_live`, then `premiere_timestamp is not None`, then
`live_status in ['is_live', 'is_upcoming', 'post_live']`. The metadata
extraction is modelled as an oracle from video id to outcome. -/

/-- Outcome of `ydl.extract_info` for a video id: an exception, or an info
dict abstracted to the three fields `is_livestream` reads. -/
inductive ExtractOutcome where
  | raisedError
  | info (is_live : Bool) (premiere_timestamp : Option ℕ) (live_status : Option String)

def is_livestream (extract : String → ExtractOutcome) (video_id : String) : Bool :=
  match extract video_id with
  | .raisedError => false
  | .info l p s =>
    if l then true
    else if p.isSome then true
    else if s = some "is_live" ∨ s = some "is_upcoming" ∨ s = some "post_live" then true
    else false

/-- C10: whenever metadata extraction raises, `is_livestream` returns `False`
(fail-open): the video is treated as not a livestream and is not filtered out
of the batch. -/
theorem is_livestream_fail_open (extract : String → ExtractOutcome) (video_id : String)
    (h : extract video_id = ExtractOutcome.raisedError) :
    is_livestream extract video_id = false := by
  unfold is_livestream
  rw [h]

/-- Witness for C10 with a concrete always-raising extraction oracle. -/
theorem is_livestream_fail_open_witness :
    is_livestream (fun _ => ExtractOutcome.raisedError) "dQw4w9WgXcQ" = false :=
  is_livestream_fail_open (fun _ => ExtractOutcome.raisedError) "dQw4w9WgXcQ" rfl

/-! ## AR_normalizer.py: `normalize_video` (lines 55-141)

The function probes the input dimensions, computes the input aspect ratio and
the target aspect ratio (the explicit `target_aspect_ratio` argument, or
`target_width / target_height` when that argument is `None`), and
* returns `False` when the probe fails or no target is specified;
* performs `shutil.copy2(input, output)` — a byte-identical copy — when
  `abs(input_ar - target_ar) < 0.01`;
* otherwise derives target dimensions (recomputed from the input when both
  are `None`, forced even), computes crop dimensions via
  `calculate_output_dimensions`, and re-encodes through ffmpeg
  (`crop=W:H,scale=W:H`, libx264).

A video file is modelled as its dimensions plus an abstract byte content; the
copy branch returns the input video unchanged.  `int(x)` on the non-negative
quantities of the recompute branch is modelled by `⌊x⌋` (Python `int()`
truncates towards zero, which agrees with floor on non-negative values).
Calling with exactly one of `target_width`/`target_height` set would raise a
`TypeError` inside `calculate_output_dimensions`; that path is modelled by a
dedicated `raisedError` constructor. -/

/-- A video file: probed dimensions plus abstract byte content. -/
structure Video where
  width : ℕ
  height : ℕ
  content : ℕ
  deriving DecidableEq

/-- Result of one `normalize_video` call. -/
inductive NormResult where
  | failed
  | copied (out : Video)
  | transcoded (cropW cropH outW outH : ℕ)
  | raisedError
  deriving DecidableEq

def normalize_video (v : Video) (targetW targetH : Option ℕ) (targetAR : Option ℚ) :
    NormResult :=
  if v.width = 0 ∨ v.height = 0 then .failed
  else
    let input_ar : ℚ := (v.width : ℚ) / (v.height : ℚ)
    let tar? : Option ℚ :=
      match targetAR with
      | some a => some a
      | none =>
        match targetW, targetH with
        | some tw, some th =>
          if tw = 0 ∨ th = 0 then none else some ((tw : ℚ) / (th : ℚ))
        | _, _ => none
    match tar? with
    | none => .failed
    | some tar =>
      if |input_ar - tar| < 1 / 100 then .copied v
      else
        let dims? : Option (ℕ × ℕ) :=
          match targetW, targetH with
          | none, none =>
            if v.height ≤ v.width then
              let tw := v.width
              let th := (⌊(v.width : ℚ) / tar⌋).toNat
              some (tw - tw % 2, th - th % 2)
            else
              let th := v.height
              let tw := (⌊(v.height : ℚ) * tar⌋).toNat
              some (tw - tw % 2, th - th % 2)
          | some tw, some th => some (tw, th)
          | _, _ => none
        match dims? with
        | none => .raisedError
        | some (tw, th) =>
          let c := calculate_output_dimensions v.width v.height tw th
          .transcoded c.1 c.2 tw th

/-- C6: when the input aspect ratio is within the 0.01 tolerance of the target
aspect ratio, `normalize_video` performs a pure byte-identical copy of the
input (the result is `copied` with the unchanged input video), and the step is
idempotent: any copied output is the input itself and normalizing it again
copies it again, unchanged. -/
theorem normalize_video_copy_idempotent (v : Video) (targetW targetH : Option ℕ)
    (t : ℚ) (hw : 0 < v.width) (hh : 0 < v.height)
    (htol : |(v.width : ℚ) / (v.height : ℚ) - t| < 1 / 100) :
    normalize_video v targetW targetH (some t) = NormResult.copied v ∧
    (∀ out, normalize_video v targetW targetH (some t) = NormResult.copied out →
      out = v ∧ normalize_video out targetW targetH (some t) = NormResult.copied out) := by
  have h0 : ¬ (v.width = 0 ∨ v.height = 0) := by omega
  have hcopy : normalize_video v targetW targetH (some t) = NormResult.copied v := by
    unfold normalize_video
    rw [if_neg h0]
    exact if_pos htol
  refine ⟨hcopy, fun out hout => ?_⟩
  rw [hcopy] at hout
  obtain rfl : v = out := by injection hout
  exact ⟨rfl, hcopy⟩

/-- Witness for C6 at a 16:9 video against the 16:9 target ratio. -/
theorem normalize_video_copy_idempotent_witness :
    normalize_video ⟨1920, 1080, 42⟩ none none (some (16 / 9)) =
      NormResult.copied ⟨1920, 1080, 42⟩ :=
  (normalize_video_copy_idempotent ⟨1920, 1080, 42⟩ none none (16 / 9)
    (by norm_num) (by norm_num) (by norm_num)).1

/-! ## Download bookkeeping: filesystem and log model (C3, C4, C7)

The filesystem is a list of directories and a list of `(directory, filename)`
pairs; `os.path.join d n = (d, n)`, `os.path.dirname (d, n) = d`,
`os.listdir d` yields the filenames of `d` in model order, and
`os.path.exists` is membership.  The append-only log is kept as its parsed
entries (the downloader skips malformed lines; only well-formed entries can
produce a hit, so modelling parsed entries is faithful for the matching
logic).  `entry.get(k)` on a possibly-absent key is an `Option` field. -/

/-- A filesystem path, `(directory, filename)`. -/
abbrev FilePath' := String × String

/-- The filesystem: existing directories and existing files. -/
structure FS where
  dirs : List String
  files : List FilePath'
  deriving DecidableEq

def FS.exists' (fs : FS) (p : FilePath') : Bool := fs.files.contains p

def FS.dirExists (fs : FS) (d : String) : Bool := fs.dirs.contains d

/-- `os.listdir d`: the filenames of directory `d`, in model order. -/
def FS.listdir (fs : FS) (d : String) : List String :=
  (fs.files.filter (fun p => p.1 = d)).map Prod.snd

/-- One parsed JSON-lines log entry; absent keys are `none`. -/
structure LogEntry where
  timestamp : ℕ
  video_id : String
  title : Option String
  type : String
  language : Option String
  file_path : Option FilePath'
  url : Option String
  reason : Option String
  deriving DecidableEq

/-- Combined downloader state: the filesystem, the log file's path, and the
log's parsed entries (the log file exists on disk iff it is in `fs.files`). -/
structure DLState where
  fs : FS
  logFile : FilePath'
  log : List LogEntry
  deriving DecidableEq

/-! ### youtube_downloader4.py / youtube_downloader5.py: `log_download`
(identical in both files: downloader4 lines 77-110, downloader5 lines 94-127).
Creates the log directory when absent, then opens the log in append mode and
writes one JSON line; `language` is recorded only for captions. -/

def log_download (s : DLState) (now : ℕ) (video_id : String) (title : Option String)
    (media_type : String) (language : Option String) (file_path : Option FilePath') :
    DLState :=
  { s with
    fs :=
      { dirs := if s.fs.dirExists s.logFile.1 then s.fs.dirs else s.fs.dirs ++ [s.logFile.1],
        files := if s.fs.exists' s.logFile then s.fs.files else s.fs.files ++ [s.logFile] },
    log := s.log ++ [{ timestamp := now, video_id := video_id, title := title,
                       type := media_type,
                       language := if language.isSome ∧ media_type = "caption" then language
                                   else none,
                       file_path := file_path, url := none, reason := none }] }

/-! ### youtube_downloader5.py: `log_skipped` (lines 129-157). Same append
discipline; the entry has `type = "skipped"` with a url and a reason. -/

def log_skipped (s : DLState) (now : ℕ) (video_id : String) (url : String)
    (reason : String) : DLState :=
  { s with
    fs :=
      { dirs := if s.fs.dirExists s.logFile.1 then s.fs.dirs else s.fs.dirs ++ [s.logFile.1],
        files := if s.fs.exists' s.logFile then s.fs.files else s.fs.files ++ [s.logFile] },
    log := s.log ++ [{ timestamp := now, video_id := video_id, title := none,
                       type := "skipped", language := none, file_path := none,
                       url := some url, reason := some reason }] }

/-! ### Filename matching helpers shared by both downloaders.

A directory entry matches when its name starts with `"<video_id>."` (or, where
the source also accepts it, equals the bare `video_id`) and its extension
matches the media type: `.wav` for audio, `.mp4`/`.webm`/`.mkv` for video
(downloader5's `check_file_exists` additionally accepts the requested
format as a raw suffix), `.txt` for captions. -/

/-- Python `s.startswith(pre)`, over the underlying character sequences. -/
def strStartsWith (s pre : String) : Bool := pre.data.isPrefixOf s.data

/-- Python `s.endswith(post)`, over the underlying character sequences. -/
def strEndsWith (s post : String) : Bool := post.data.isSuffixOf s.data

def extMatches (media_type file : String) : Bool :=
  (media_type = "audio" && strEndsWith file ".wav")
  || (media_type = "video"
      && (strEndsWith file ".mp4" || strEndsWith file ".webm" || strEndsWith file ".mkv"))
  || (media_type = "caption" && strEndsWith file ".txt")

def nameMatches (video_id file : String) (allowBare : Bool) : Bool :=
  strStartsWith file (video_id ++ ".") || (allowBare && file = video_id)

/-- First file of directory `d` matching the video id and media type, as a
full path (the shared inner loop of the two downloaders' directory scans). -/
def scanDirFor (fs : FS) (d : String) (video_id media_type : String)
    (allowBare : Bool) : Option FilePath' :=
  ((fs.listdir d).find? (fun f => nameMatches video_id f allowBare
    && extMatches media_type f)).map (fun f => (d, f))

/-! ### youtube_downloader4.py: `check_already_downloaded` (lines 10-74).

Order of operations in the source: (1) if the log file does not exist, return
`(False, None)` — the directory is never scanned; (2) scan the **log** line by
line: an entry matching `(video_id, type[, language])` whose `file_path` still
exists is returned at once; if the path is stale, the entry's own directory is
scanned for a name/extension match (bare `video_id` names accepted); (3) only
when no log entry produced a hit, scan the log file's directory for a
`"<video_id>."`-prefixed match (bare names not accepted here). -/

def entry_hit4 (fs : FS) (video_id media_type : String) (language : Option String)
    (e : LogEntry) : Option FilePath' :=
  if e.video_id = video_id ∧ e.type = media_type
      ∧ ¬ (media_type = "caption" ∧ language.isSome ∧ e.language ≠ language) then
    match e.file_path with
    | some p =>
      if fs.exists' p then some p
      else if fs.dirExists p.1 then scanDirFor fs p.1 video_id media_type true
      else none
    | none => none
  else none

def check_already_downloaded (s : DLState) (video_id media_type : String)
    (language : Option String) : Bool × Option FilePath' :=
  if ¬ s.fs.exists' s.logFile then (false, none)
  else
    match s.log.findSome? (entry_hit4 s.fs video_id media_type language) with
    | some p => (true, some p)
    | none =>
      if s.fs.dirExists s.logFile.1 then
        match scanDirFor s.fs s.logFile.1 video_id media_type false with
        | some p => (true, some p)
        | none => (false, none)
      else (false, none)

/-! ### youtube_downloader5.py: `check_file_exists` (lines 10-37).

Pure directory scan — the log is not even an argument.  The video extension
set also admits the requested `video_format` as a suffix. -/

def extMatches5 (media_type video_format file : String) : Bool :=
  (media_type = "audio" && strEndsWith file ".wav")
  || (media_type = "video"
      && (strEndsWith file ".mp4" || strEndsWith file ".webm" || strEndsWith file ".mkv"
          || strEndsWith file video_format))
  || (media_type = "caption" && strEndsWith file ".txt")

def check_file_exists (fs : FS) (output_path video_id media_type video_format : String) :
    Bool × Option FilePath' :=
  if ¬ fs.dirExists output_path then (false, none)
  else
    match (fs.listdir output_path).find? (fun f => nameMatches video_id f true
        && extMatches5 media_type video_format f) with
    | some f => (true, some (output_path, f))
    | none => (false, none)

/-! youtube_downloader5's `check_already_downloaded` (lines 39-91) matches
log entries exactly as downloader4's does (same per-entry stale-directory
fallback), but has no final directory scan: after the loop it returns
`(False, None)`. -/

def check_already_downloaded5 (s : DLState) (video_id media_type : String)
    (language : Option String) : Bool × Option FilePath' :=
  if ¬ s.fs.exists' s.logFile then (false, none)
  else
    match s.log.findSome? (entry_hit4 s.fs video_id media_type language) with
    | some p => (true, some p)
    | none => (false, none)

/-- The composed two-tier check as performed at youtube_downloader5's call
sites (`download_caption` lines 327-343, `download_video_or_audio` lines
473-535, `process_video` lines 777-823): disk scan first, log consulted only
when the disk scan misses. -/
def two_tier_check5 (s : DLState) (output_path video_id media_type video_format : String)
    (language : Option String) : Bool × Option FilePath' :=
  match check_file_exists s.fs output_path video_id media_type video_format with
  | (true, p) => (true, p)
  | _ => check_already_downloaded5 s video_id media_type language

/-- Modelled from the spec (section 4.1): the claimed two-tier idempotency
algorithm, stated from the specification's own words for comparison with the
implementations — disk-first scan of the expected directory (a match is a name
beginning with the video identifier whose extension matches the media type's
set; the log is not touched), then log fallback with the stale-path directory
heuristic. -/
def spec_two_tier_check (s : DLState) (dir video_id media_type : String)
    (language : Option String) : Bool × Option FilePath' :=
  match ((s.fs.listdir dir).find? (fun f => strStartsWith f video_id
      && extMatches media_type f)).map (fun f => (dir, f)) with
  | some p => (true, some p)
  | none =>
    match s.log.findSome? (entry_hit4 s.fs video_id media_type language) with
    | some p => (true, some p)
    | none => (false, none)

/-- C3 counterexample: with the log file absent and a directly matching file
`v.mp4` in the log directory, youtube_downloader4's `check_already_downloaded`
reports a miss (it returns immediately when the log file does not exist,
without ever scanning the directory), while the claimed disk-first algorithm
reports the on-disk hit: the source's check is log-first, not disk-first. -/
theorem check_already_downloaded_not_disk_first :
    check_already_downloaded
        ⟨⟨["d"], [("d", "v.mp4")]⟩, ("d", "log.jsonl"), []⟩ "v" "video" none
      = (false, none) ∧
    spec_two_tier_check
        ⟨⟨["d"], [("d", "v.mp4")]⟩, ("d", "log.jsonl"), []⟩ "d" "v" "video" none
      = (true, some ("d", "v.mp4")) := by decide

/-- C3 (amended): the two-tier disk-first check holds of youtube_downloader5,
where the call sites run `check_file_exists` (a pure directory scan that never
touches the log) and consult the log via `check_already_downloaded` only on a
disk miss; youtube_downloader4's `check_already_downloaded` instead reads the
log first — a log entry hit is returned without the final directory scan, and
an absent log file is an immediate miss even when a matching file is on
disk. -/
theorem two_tier_order (s : DLState) (dir video_id media_type video_format : String)
    (language : Option String) (p : Option FilePath') :
    (check_file_exists s.fs dir video_id media_type video_format = (true, p) →
      two_tier_check5 s dir video_id media_type video_format language = (true, p)) ∧
    ((check_file_exists s.fs dir video_id media_type video_format).1 = false →
      two_tier_check5 s dir video_id media_type video_format language
        = check_already_downloaded5 s video_id media_type language) ∧
    (s.fs.exists' s.logFile = true →
      ∀ q, s.log.findSome? (entry_hit4 s.fs video_id media_type language) = some q →
        check_already_downloaded s video_id media_type language = (true, some q)) ∧
    (s.fs.exists' s.logFile = false →
      check_already_downloaded s video_id media_type language = (false, none)) := by
  refine ⟨fun h => ?_, fun h => ?_, fun h q hq => ?_, fun h => ?_⟩
  · unfold two_tier_check5
    rw [h]
  · rcases hc : check_file_exists s.fs dir video_id media_type video_format with ⟨b, p'⟩
    rw [hc] at h
    obtain rfl : b = false := h
    unfold two_tier_check5
    rw [hc]
  · unfold check_already_downloaded
    rw [if_neg (by simp [h]), hq]
  · unfold check_already_downloaded
    rw [if_pos (by simp [h])]

/-- Witness for the amended C3 theorem: a concrete disk hit short-circuits the
downloader5 composed check, and a concrete log hit is what downloader4
returns. -/
theorem two_tier_order_witness :
    two_tier_check5 ⟨⟨["o"], [("o", "v.mp4")]⟩, ("o", "log.jsonl"), []⟩
        "o" "v" "video" "mp4" none = (true, some ("o", "v.mp4")) ∧
    check_already_downloaded
        ⟨⟨["d"], [("d", "log.jsonl"), ("d", "v.webm")]⟩, ("d", "log.jsonl"),
          [⟨0, "v", none, "video", none, some ("d", "v.webm"), none, none⟩]⟩
        "v" "video" none = (true, some ("d", "v.webm")) :=
  ⟨(two_tier_order ⟨⟨["o"], [("o", "v.mp4")]⟩, ("o", "log.jsonl"), []⟩
      "o" "v" "video" "mp4" none (some ("o", "v.mp4"))).1 (by decide),
   (two_tier_order ⟨⟨["d"], [("d", "log.jsonl"), ("d", "v.webm")]⟩, ("d", "log.jsonl"),
      [⟨0, "v", none, "video", none, some ("d", "v.webm"), none, none⟩]⟩
      "d" "v" "video" "mp4" none none).2.2.1 (by decide) ("d", "v.webm") (by decide)⟩

/-- C4 counterexample: record a download whose `file_path` (`d/v.avi`) does not
exist on disk while an unrelated `v.mp4` sits in the same directory; the
subsequent check still reports a hit through the directory-prefix fallback,
so "hit if and only if the recorded file_path still exists" fails in the
only-if direction. -/
theorem record_then_check_not_iff :
    (log_download ⟨⟨["d"], [("d", "v.mp4")]⟩, ("d", "log.jsonl"), []⟩
        0 "v" (some "t") "video" none (some ("d", "v.avi"))).fs.exists' ("d", "v.avi")
      = false ∧
    (check_already_downloaded
        (log_download ⟨⟨["d"], [("d", "v.mp4")]⟩, ("d", "log.jsonl"), []⟩
          0 "v" (some "t") "video" none (some ("d", "v.avi")))
        "v" "video" none).1 = true := by decide

/-- C4 (amended): after `log_download` records `(video_id, media_type)` with a
`file_path`, a subsequent `check_already_downloaded` for the same key returns a
hit whenever the recorded path still exists; the converse direction fails (see
the counterexample): when the recorded path is stale the check can still hit
via the directory-prefix fallback. -/
theorem record_then_check_hits (s : DLState) (now : ℕ) (video_id : String)
    (title : Option String) (media_type : String) (language : Option String)
    (p : FilePath')
    (hp : (log_download s now video_id title media_type language (some p)).fs.exists' p
      = true) :
    (check_already_downloaded
        (log_download s now video_id title media_type language (some p))
        video_id media_type none).1 = true := by
  set s' := log_download s now video_id title media_type language (some p) with hs'
  have hlogfile : s'.fs.exists' s'.logFile = true := by
    rw [hs']
    unfold log_download FS.exists'
    by_cases h : s.fs.files.contains s.logFile = true
    · rw [if_pos h]
      exact h
    · rw [if_neg h]
      exact List.elem_eq_true_of_mem
        (List.mem_append_right _ (List.mem_singleton.mpr rfl))
  have hentry : entry_hit4 s'.fs video_id media_type none
      { timestamp := now, video_id := video_id, title := title, type := media_type,
        language := if language.isSome ∧ media_type = "caption" then language else none,
        file_path := some p, url := none, reason := none } = some p := by
    unfold entry_hit4
    rw [if_pos (by simp)]
    simp only []
    rw [if_pos hp]
  have hlog : s'.log = s.log ++
      [{ timestamp := now, video_id := video_id, title := title, type := media_type,
         language := if language.isSome ∧ media_type = "caption" then language else none,
         file_path := some p, url := none, reason := none }] := rfl
  unfold check_already_downloaded
  rw [if_neg (by simp [hlogfile]), hlog, List.findSome?_append]
  cases hold : s.log.findSome? (entry_hit4 s'.fs video_id media_type none) with
  | some q => simp [Option.or, hold]
  | none => simp [Option.or, hold, hentry]

/-- Witness for the amended C4 theorem: record `d/v.mp4` on a disk where that
file exists; the subsequent check hits. -/
theorem record_then_check_hits_witness :
    (check_already_downloaded
        (log_download ⟨⟨["d"], [("d", "v.mp4")]⟩, ("d", "log.jsonl"), []⟩
          0 "v" (some "t") "video" none (some ("d", "v.mp4")))
        "v" "video" none).1 = true :=
  record_then_check_hits ⟨⟨["d"], [("d", "v.mp4")]⟩, ("d", "log.jsonl"), []⟩
    0 "v" (some "t") "video" none ("d", "v.mp4") (by decide)

/-- C7: each call to `log_download` (both downloaders share this code) and
`log_skipped` appends exactly one entry at the end of the log, leaves every
previously written entry unchanged in place, and creates the log file's parent
directory when absent: the log is a monotonically growing sequence of
immutable entries. -/
theorem log_append_only (s : DLState) (now : ℕ) (video_id : String)
    (title : Option String) (media_type : String) (language : Option String)
    (file_path : Option FilePath') (url reason : String) :
    ((log_download s now video_id title media_type language file_path).log
        = s.log ++ [{ timestamp := now, video_id := video_id, title := title,
                      type := media_type,
                      language := if language.isSome ∧ media_type = "caption" then language
                                  else none,
                      file_path := file_path, url := none, reason := none }] ∧
      (log_download s now video_id title media_type language file_path).fs.dirExists
        s.logFile.1 = true) ∧
    ((log_skipped s now video_id url reason).log
        = s.log ++ [{ timestamp := now, video_id := video_id, title := none,
                      type := "skipped", language := none, file_path := none,
                      url := some url, reason := some reason }] ∧
      (log_skipped s now video_id url reason).fs.dirExists s.logFile.1 = true) := by
  have hdir :
      ((if s.fs.dirExists s.logFile.1 then s.fs.dirs else s.fs.dirs ++ [s.logFile.1]
        : List String).contains s.logFile.1) = true := by
    by_cases h : s.fs.dirExists s.logFile.1 = true
    · rw [if_pos h]
      exact h
    · rw [if_neg h]
      exact List.elem_eq_true_of_mem
        (List.mem_append_right _ (List.mem_singleton.mpr rfl))
  exact ⟨⟨rfl, hdir⟩, ⟨rfl, hdir⟩⟩

/-! ## csv_to_txt.py: `csv_to_text_files`, per-row logic (lines 37-73)

For each CSV row the script computes
`text_content = row[text_column] or ""` and
`filename_base = row[filename_column] or f"row_\x7brow_num\x7d"`, then
* replaces every character of `<>:"/\|?*` by `_` (`re.sub` with a
  single-character class) and strips surrounding whitespace,
* falls back to `row_<n>` when the cleaned name is empty,
* rewrites a (case-insensitive) `.mp4` ending to `.txt`, else appends `.txt`
  unless the name already (case-insensitively) ends in `.txt`,
* joins with the output directory, and while the path exists replaces it by
  `f"\x7bname\x7d_\x7bcounter\x7d\x7bext\x7d"` built by `os.path.splitext`
  from the original path, incrementing `counter` from 1,
* writes `text_content` to the resulting path.

Python's unbounded `while` loop is modelled with fuel `len(existing) + 1`,
which is enough to reach a fresh name (proved below by pigeonhole); the
decimal rendering of the counter is modelled by an explicit base-10
digit-string function. -/

def invalid_char (c : Char) : Bool :=
  c ∈ ['<', '>', ':', '"', '/', '\\', '|', '?', '*']

/-- `re.sub(r'[<>:"/\\|?*]', '_', s)`. -/
def clean_filename (s : String) : String :=
  (s.data.map (fun c => if invalid_char c then '_' else c)).asString

/-- Python `s.strip()`. -/
def strStrip (s : String) : String :=
  (((s.data.dropWhile Char.isWhitespace).reverse.dropWhile
    Char.isWhitespace).reverse).asString

/-- Python `s.lower()`. -/
def strLower (s : String) : String := (s.data.map Char.toLower).asString

/-- The `.mp4`-to-`.txt` rewrite and `.txt`-extension default
(`csv_to_txt.py` lines 49-53); `s[:-4]` is `take (length - 4)`. -/
def ensure_txt_ext (s : String) : String :=
  if strEndsWith (strLower s) ".mp4" then
    (s.data.take (s.data.length - 4)).asString ++ ".txt"
  else if strEndsWith (strLower s) ".txt" then s
  else s ++ ".txt"

/-- The decimal digit character of `n < 10`. -/
def digitChar (n : ℕ) : Char := Char.ofNat (48 + n)

/-- Base-10 digit string of a natural number (most significant first),
modelling Python's decimal formatting of the collision counter. -/
def natToDigits (n : ℕ) : List Char :=
  if n < 10 then [digitChar n]
  else natToDigits (n / 10) ++ [digitChar (n % 10)]
  termination_by n
  decreasing_by exact Nat.div_lt_self (by omega) (by omega)

def natToDec (n : ℕ) : String := (natToDigits n).asString

/-- Index of the last character satisfying `p`, if any. -/
def findLastIdx (p : Char → Bool) : List Char → Option ℕ
  | [] => none
  | c :: cs =>
    match findLastIdx p cs with
    | some i => some (i + 1)
    | none => if p c then some 0 else none

/-- `os.path.splitext`: split at the last dot, provided it lies inside the
basename (after the last `/`) and at least one non-dot character of the
basename precedes it (a leading-dot name such as `.txt` has no extension). -/
def splitext (path : String) : String × String :=
  let l := path.data
  let base0 : ℕ := match findLastIdx (fun c => c = '/') l with
    | some i => i + 1
    | none => 0
  match findLastIdx (fun c => c = '.') l with
  | some dotIdx =>
    if base0 ≤ dotIdx ∧ ((l.drop base0).take (dotIdx - base0)).any (fun c => ¬ c = '.') then
      ((l.take dotIdx).asString, (l.drop dotIdx).asString)
    else (path, "")
  | none => (path, "")

/-- The `k`-th collision candidate `f"\x7bname\x7d_\x7bk\x7d\x7bext\x7d"`. -/
def cand_name (stem ext : String) (k : ℕ) : String :=
  stem ++ "_" ++ natToDec k ++ ext

/-- The collision `while` loop with explicit fuel: try `cand_name stem ext k`,
advancing the counter while the candidate exists. -/
def resolve_from (existing : List String) (stem ext : String) : ℕ → ℕ → String
  | 0, k => cand_name stem ext k
  | fuel + 1, k =>
    if existing.contains (cand_name stem ext k) then
      resolve_from existing stem ext fuel (k + 1)
    else cand_name stem ext k

/-- Lines 58-64 of `csv_to_txt.py`: keep the original path when free,
otherwise run the counter loop on `splitext(original)`. -/
def resolve_collision (existing : List String) (orig : String) : String :=
  if existing.contains orig then
    resolve_from existing (splitext orig).1 (splitext orig).2 (existing.length + 1) 1
  else orig

/-- The per-row pipeline of `csv_to_text_files` (lines 37-73): the path the
row's file is written to and the content written there.  `none` fields model
absent CSV values; Python's `or` default fires on `None` and `""`. -/
def process_row (output_directory : String) (existing : List String)
    (text_field filename_field : Option String) (row_num : ℕ) :
    String × String :=
  let text_content := text_field.getD ""
  let filename_base : String :=
    match filename_field with
    | some f => if f = "" then "row_" ++ natToDec row_num else f
    | none => "row_" ++ natToDec row_num
  let fc1 := strStrip (clean_filename filename_base)
  let fc2 := if fc1 = "" then "row_" ++ natToDec row_num else fc1
  let file_path := output_directory ++ "/" ++ ensure_txt_ext fc2
  (resolve_collision existing file_path, text_content)

/-! ### Correctness of the decimal rendering and the collision loop -/

theorem digitChar_toNat (n : ℕ) (h : n < 10) : (digitChar n).toNat = 48 + n := by
  interval_cases n <;> decide

/-- Numeric value of a digit string. -/
def digitsVal (l : List Char) : ℕ :=
  l.foldl (fun a c => 10 * a + (c.toNat - 48)) 0

theorem digitsVal_natToDigits (n : ℕ) : digitsVal (natToDigits n) = n := by
  induction n using Nat.strong_induction_on with
  | _ n ih =>
    rw [natToDigits]
    split
    case isTrue h =>
      simp [digitsVal, List.foldl, digitChar_toNat n h]
    case isFalse h =>
      have ih' := ih (n / 10) (Nat.div_lt_self (by omega) (by omega))
      unfold digitsVal at ih' ⊢
      rw [List.foldl_append, ih']
      simp [List.foldl, digitChar_toNat (n % 10) (Nat.mod_lt n (by omega))]
      omega

theorem natToDec_injective {a b : ℕ} (h : natToDec a = natToDec b) : a = b := by
  have hd : natToDigits a = natToDigits b := congrArg String.data h
  calc a = digitsVal (natToDigits a) := (digitsVal_natToDigits a).symm
    _ = digitsVal (natToDigits b) := congrArg digitsVal hd
    _ = b := digitsVal_natToDigits b

theorem cand_name_injective (stem ext : String) {a b : ℕ}
    (h : cand_name stem ext a = cand_name stem ext b) : a = b := by
  unfold cand_name at h
  have h1 : stem.data ++ ("_".data ++ ((natToDec a).data ++ ext.data))
      = stem.data ++ ("_".data ++ ((natToDec b).data ++ ext.data)) := by
    simpa [String.data_append, List.append_assoc] using congrArg String.data h
  have h2 := List.append_cancel_left (List.append_cancel_left h1)
  have h3 := List.append_cancel_right h2
  exact natToDec_injective (by
    apply congrArg List.asString at h3
    simpa [natToDec] using h3)

theorem exists_free_cand (existing : List String) (stem ext : String) :
    ∃ j, 1 ≤ j ∧ j < 1 + (existing.length + 1) ∧ cand_name stem ext j ∉ existing := by
  by_contra hall
  push_neg at hall
  have hsub : ∀ a ∈ Finset.Icc 1 (existing.length + 1),
      cand_name stem ext a ∈ existing.toFinset := by
    intro a ha
    rw [Finset.mem_Icc] at ha
    rw [List.mem_toFinset]
    exact hall a ha.1 (by omega)
  have hinj : Set.InjOn (cand_name stem ext) (Finset.Icc 1 (existing.length + 1)) :=
    fun a _ b _ hab => cand_name_injective stem ext hab
  have hcard := Finset.card_le_card_of_injOn _ hsub hinj
  rw [Nat.card_Icc] at hcard
  have hfin := List.toFinset_card_le (l := existing)
  omega

theorem resolve_from_shape (existing : List String) (stem ext : String)
    (fuel : ℕ) : ∀ k : ℕ, ∃ j, k ≤ j ∧
      resolve_from existing stem ext fuel k = cand_name stem ext j := by
  induction fuel with
  | zero => exact fun k => ⟨k, le_refl k, rfl⟩
  | succ fuel ih =>
    intro k
    simp only [resolve_from]
    by_cases hc : existing.contains (cand_name stem ext k) = true
    · rw [if_pos hc]
      obtain ⟨j, hj, hres⟩ := ih (k + 1)
      exact ⟨j, by omega, hres⟩
    · rw [if_neg hc]
      exact ⟨k, le_refl k, rfl⟩

theorem resolve_from_free (existing : List String) (stem ext : String)
    (fuel : ℕ) : ∀ k : ℕ,
      (∃ j, k ≤ j ∧ j < k + fuel ∧ cand_name stem ext j ∉ existing) →
      resolve_from existing stem ext fuel k ∉ existing := by
  induction fuel with
  | zero =>
    rintro k ⟨j, hj1, hj2, _⟩
    omega
  | succ fuel ih =>
    rintro k ⟨j, hj1, hj2, hjfree⟩
    simp only [resolve_from]
    by_cases hc : existing.contains (cand_name stem ext k) = true
    · rw [if_pos hc]
      apply ih (k + 1)
      have hkmem : cand_name stem ext k ∈ existing := List.elem_iff.mp hc
      have hjk : j ≠ k := fun he => hjfree (he ▸ hkmem)
      exact ⟨j, by omega, by omega, hjfree⟩
    · rw [if_neg hc]
      intro hmem
      exact hc (List.elem_eq_true_of_mem hmem)

/-- Combined behaviour of the collision loop: the returned path is never an
existing one; a free original path is returned untouched; and any returned
path is either the original or a numeric-suffix candidate built by
`splitext` on the original. -/
theorem resolve_collision_spec (existing : List String) (orig : String) :
    resolve_collision existing orig ∉ existing ∧
    (orig ∉ existing → resolve_collision existing orig = orig) ∧
    (resolve_collision existing orig = orig ∨
      ∃ k, 1 ≤ k ∧ resolve_collision existing orig
        = cand_name (splitext orig).1 (splitext orig).2 k) := by
  unfold resolve_collision
  by_cases hc : existing.contains orig = true
  · rw [if_pos hc]
    obtain ⟨j, hj1, hj2, hjfree⟩ := exists_free_cand existing (splitext orig).1 (splitext orig).2
    refine ⟨resolve_from_free existing _ _ _ 1 ⟨j, hj1, by omega, hjfree⟩, ?_, ?_⟩
    · intro horig
      exact absurd (List.elem_iff.mp hc) horig
    · obtain ⟨j', hj', hres⟩ := resolve_from_shape existing (splitext orig).1 (splitext orig).2
        (existing.length + 1) 1
      exact Or.inr ⟨j', hj', hres⟩
  · rw [if_neg hc]
    refine ⟨fun hmem => hc (List.elem_eq_true_of_mem hmem), fun _ => rfl, Or.inl rfl⟩

/-- Characters surviving the sanitize-and-strip step carry no invalid
filesystem character. -/
theorem clean_strip_no_invalid (s : String) :
    ∀ c ∈ (strStrip (clean_filename s)).data, invalid_char c = false := by
  intro c hc
  have hmem : c ∈ (clean_filename s).data := by
    unfold strStrip at hc
    have h1 : c ∈ ((clean_filename s).data.dropWhile Char.isWhitespace).reverse.dropWhile
        Char.isWhitespace := by simpa [List.asString] using hc
    have h2 := (List.dropWhile_sublist (l := ((clean_filename s).data.dropWhile
        Char.isWhitespace).reverse) (p := Char.isWhitespace)).mem h1
    rw [List.mem_reverse] at h2
    exact (List.dropWhile_sublist (l := (clean_filename s).data)
      (p := Char.isWhitespace)).mem h2
  unfold clean_filename at hmem
  simp only [List.asString] at hmem
  rw [List.mem_map] at hmem
  obtain ⟨c₀, _, rfl⟩ := hmem
  by_cases h : invalid_char c₀ = true
  · rw [if_pos h]
    decide
  · rw [if_neg h]
    exact Bool.not_eq_true _ |>.mp h

theorem strEndsWith_append (a b : String) : strEndsWith (a ++ b) b = true := by
  simp only [strEndsWith, String.data_append, List.isSuffixOf_iff_suffix]
  exact List.suffix_append a.data b.data

theorem strLower_append (a b : String) : strLower (a ++ b) = strLower a ++ strLower b := by
  simp only [strLower, String.data_append, List.map_append]
  rfl

/-- Whatever the cleaned name was, the extension-fixing step yields a name
that (case-insensitively) ends in `.txt`. -/
theorem ensure_txt_ext_endsWith (s : String) :
    strEndsWith (strLower (ensure_txt_ext s)) ".txt" = true := by
  unfold ensure_txt_ext
  split
  case isTrue h =>
    rw [strLower_append]
    have hlow : strLower ".txt" = ".txt" := by decide
    rw [← hlow]
    exact strEndsWith_append _ _
  case isFalse h =>
    split
    case isTrue h2 => exact h2
    case isFalse h2 =>
      rw [strLower_append]
      have hlow : strLower ".txt" = ".txt" := by decide
      rw [← hlow]
      exact strEndsWith_append _ _

/-- C8: a CSV row with an empty text field produces a write of empty content;
the target name is the sanitized filename column (invalid characters replaced
by `_`, surrounding whitespace stripped) with a `.txt` extension ensured; the
chosen path never collides with an existing file: it is the sanitized path
itself whenever that is free, and otherwise a `_1, _2, ...` numeric-suffix
variant produced from `os.path.splitext` of it. -/
theorem csv_row_empty_text (dir : String) (existing : List String) (fn : String)
    (row_num : ℕ) (hfn : fn ≠ "")
    (hclean : strStrip (clean_filename fn) ≠ "") :
    (process_row dir existing (some "") (some fn) row_num).2 = "" ∧
    (∀ c ∈ (strStrip (clean_filename fn)).data, invalid_char c = false) ∧
    strEndsWith (strLower (ensure_txt_ext (strStrip (clean_filename fn)))) ".txt" = true ∧
    (process_row dir existing (some "") (some fn) row_num).1 ∉ existing ∧
    ((dir ++ "/" ++ ensure_txt_ext (strStrip (clean_filename fn))) ∉ existing →
      (process_row dir existing (some "") (some fn) row_num).1
        = dir ++ "/" ++ ensure_txt_ext (strStrip (clean_filename fn))) ∧
    ((process_row dir existing (some "") (some fn) row_num).1
        = dir ++ "/" ++ ensure_txt_ext (strStrip (clean_filename fn)) ∨
      ∃ k, 1 ≤ k ∧
        (process_row dir existing (some "") (some fn) row_num).1
          = cand_name (splitext (dir ++ "/" ++ ensure_txt_ext (strStrip (clean_filename fn)))).1
              (splitext (dir ++ "/" ++ ensure_txt_ext (strStrip (clean_filename fn)))).2 k) := by
  have hpr : process_row dir existing (some "") (some fn) row_num
      = (resolve_collision existing
          (dir ++ "/" ++ ensure_txt_ext (strStrip (clean_filename fn))), "") := by
    have h1 : (if fn = "" then "row_" ++ natToDec row_num else fn) = fn := if_neg hfn
    unfold process_row
    dsimp only
    rw [h1, if_neg hclean]
    rfl
  obtain ⟨hfree, horig, hshape⟩ := resolve_collision_spec existing
    (dir ++ "/" ++ ensure_txt_ext (strStrip (clean_filename fn)))
  rw [hpr]
  exact ⟨rfl, clean_strip_no_invalid fn, ensure_txt_ext_endsWith _, hfree, horig, hshape⟩

/-- Witness for C8 at a concrete row: filename `a<b.mp4` with an empty text
field, one existing file in the output directory. -/
theorem csv_row_empty_text_witness :
    (process_row "out" ["out/a.txt"] (some "") (some "a<b.mp4") 1).2 = "" ∧
    (∀ c ∈ (strStrip (clean_filename "a<b.mp4")).data, invalid_char c = false) ∧
    strEndsWith (strLower (ensure_txt_ext (strStrip (clean_filename "a<b.mp4")))) ".txt"
      = true ∧
    (process_row "out" ["out/a.txt"] (some "") (some "a<b.mp4") 1).1 ∉ ["out/a.txt"] ∧
    (("out" ++ "/" ++ ensure_txt_ext (strStrip (clean_filename "a<b.mp4"))) ∉ ["out/a.txt"] →
      (process_row "out" ["out/a.txt"] (some "") (some "a<b.mp4") 1).1
        = "out" ++ "/" ++ ensure_txt_ext (strStrip (clean_filename "a<b.mp4"))) ∧
    ((process_row "out" ["out/a.txt"] (some "") (some "a<b.mp4") 1).1
        = "out" ++ "/" ++ ensure_txt_ext (strStrip (clean_filename "a<b.mp4")) ∨
      ∃ k, 1 ≤ k ∧
        (process_row "out" ["out/a.txt"] (some "") (some "a<b.mp4") 1).1
          = cand_name
              (splitext ("out" ++ "/" ++ ensure_txt_ext (strStrip (clean_filename "a<b.mp4")))).1
              (splitext ("out" ++ "/" ++ ensure_txt_ext (strStrip (clean_filename "a<b.mp4")))).2
              k) :=
  csv_row_empty_text "out" ["out/a.txt"] "a<b.mp4" 1 (by decide) (by decide)

end VideoPrep
